import Mathlib

/-!
# SeedKey client SDK — verification of the core protocol layer

A shallow embedding of the SeedKey client SDK (TypeScript) in Lean 4:

* the error model (`src/types.ts`: `SeedKeyError`, `ERROR_CODES`,
  `ExtensionNotFoundError`);
* the correlated transport of `SeedKey` (`sendToExtension`,
  `handleResponse`, timeout expiry, `destroy`), modelled as an explicit
  state machine over the in-flight request table, the armed timers, a
  settlement log and the inbound-listener flag;
* the flow orchestrator (`register`, `authenticate`, `auth`) as
  `Except`-monadic functions over an environment of external oracles
  (extension and backend replies);
* the session ledger (`src/storage.ts`: `isTokenExpired`) over an
  association-list model of `localStorage`;
* the backend `ApiClient.getUser` error-fallback path;
* the module-level singleton accessors (`getSeedKey` / `resetSeedKey`)
  as explicit slot passing.

JavaScript runtime conventions that matter are modelled explicitly:
`x || d` on strings treats both absent and empty values as falsy
(`jsOrStr`), `parseInt` parses an optional sign and a digit prefix
(`jsParseInt`), and `=== true` checks on an untyped result inspect an
optional object field (`truthyFieldEqTrue`).
-/

namespace SeedKeySDK

/-! ## Error model — `src/types.ts` -/

def SDK_VERSION : String := "0.0.1"

/-- `EXTENSION_DOWNLOAD_URL` in `src/types.ts` (currently the empty string). -/
def EXTENSION_DOWNLOAD_URL : String := ""

namespace ERROR_CODES

def EXTENSION_NOT_FOUND : String := "EXTENSION_NOT_FOUND"

def EXTENSION_NOT_CONFIGURED : String := "EXTENSION_NOT_CONFIGURED"

def NOT_INITIALIZED : String := "NOT_INITIALIZED"

def EXTENSION_LOCKED : String := "LOCKED"

def TIMEOUT : String := "TIMEOUT"

def USER_REJECTED : String := "USER_REJECTED"

def BIOMETRIC_FAILED : String := "BIOMETRIC_FAILED"

def DOMAIN_MISMATCH : String := "DOMAIN_MISMATCH"

def INVALID_CHALLENGE : String := "INVALID_CHALLENGE"

def NETWORK_ERROR : String := "NETWORK_ERROR"

def SERVER_ERROR : String := "SERVER_ERROR"

def CHALLENGE_EXPIRED : String := "CHALLENGE_EXPIRED"

def NONCE_REUSED : String := "NONCE_REUSED"

def USER_NOT_FOUND : String := "USER_NOT_FOUND"

def USER_EXISTS : String := "USER_EXISTS"

def INVALID_SIGNATURE : String := "INVALID_SIGNATURE"

def INVALID_TOKEN : String := "INVALID_TOKEN"

end ERROR_CODES

/-- `SeedKeyError` carries a structured code, a message, and optional
remediation metadata (`hint`, `downloadUrl`). -/
structure SeedKeyError where
  code : String
  message : String
  hint : Option String
  downloadUrl : Option String
deriving Repr, DecidableEq

/-- `ExtensionNotFoundError`: a `SeedKeyError` with code
`EXTENSION_NOT_FOUND`, a remediation hint and the download URL. -/
def ExtensionNotFoundError (message : String) : SeedKeyError :=
  { code := ERROR_CODES.EXTENSION_NOT_FOUND
    message := message
    hint := some "Install SeedKey browser extension"
    downloadUrl := some EXTENSION_DOWNLOAD_URL }

/-- JavaScript `x || dflt` on an optional string: both an absent value and
the empty string are falsy and fall back to the default. -/
def jsOrStr (v : Option String) (dflt : String) : String :=
  match v with
  | some s => if s = "" then dflt else s
  | none => dflt

/-! ## Untyped JavaScript values

A minimal model of the untyped `unknown` payloads carried by extension
responses and parsed JSON bodies. -/

inductive Val where
  | vNull : Val
  | vBool : Bool → Val
  | vNum : Int → Val
  | vStr : String → Val
  | vObj : List (String × Val) → Val
deriving Repr

/-- Field lookup inside an object literal (first binding wins). -/
def lookupField : List (String × Val) → String → Option Val
  | [], _ => none
  | (k, v) :: rest, key => if k = key then some v else lookupField rest key

/-- JavaScript property access `v.key`: only objects have fields; access on
any other value yields no field. -/
def getField : Val → String → Option Val
  | .vObj fs, key => lookupField fs key
  | _, _ => none

/-- The string content of a field, when the field is present and a string. -/
def getStrField (v : Val) (key : String) : Option String :=
  match getField v key with
  | some (.vStr s) => some s
  | _ => none

/-- `result.key === true` on an untyped optional result: true exactly when
the result is an object whose `key` field is the boolean `true` (an absent
result, or any other field shape, compares unequal; a property access that
throws is caught by the probes and also yields `false`). -/
def truthyFieldEqTrue (result : Option Val) (key : String) : Bool :=
  match result with
  | some v =>
    match getField v key with
    | some (.vBool true) => true
    | _ => false
  | none => false

/-! ## Session ledger — `src/storage.ts` -/

/-- The `localStorage` key used for the absolute expiry. -/
def STORAGE_KEY_EXPIRES_AT : String := "seedkey_expires_at"

/-- `localStorage.getItem`: `null` (here `none`) when the key is absent. -/
def localStorageGetItem (store : List (String × String)) (key : String) : Option String :=
  match store with
  | [] => none
  | (k, v) :: rest => if k = key then some v else localStorageGetItem rest key

/-- Accumulate a decimal digit list into a natural number. -/
def digitsToNat (cs : List Char) : Nat :=
  cs.foldl (fun acc c => acc * 10 + (c.toNat - 48)) 0

/-- JavaScript `parseInt(s, 10)`: skip leading whitespace, read an optional
sign and then the longest digit prefix; `none` models `NaN` (no digits). -/
def jsParseInt (s : String) : Option Int :=
  let cs := s.toList.dropWhile Char.isWhitespace
  let signAndRest : Int × List Char :=
    match cs with
    | '-' :: t => (-1, t)
    | '+' :: t => (1, t)
    | t => (1, t)
  let digits := signAndRest.2.takeWhile Char.isDigit
  if digits.isEmpty then none
  else some (signAndRest.1 * (digitsToNat digits : Int))

/-- The fixed 5-minute expiry buffer (`5 * 60 * 1000` ms). -/
def bufferMs : Int := 5 * 60 * 1000

/-- `isTokenExpired()` from `src/storage.ts`, as a function of the store and
the current time: a missing (or empty, hence falsy) recorded expiry is
expired; otherwise expired iff `now > parseInt(expiresAt) - bufferMs`
(a `NaN` parse makes the comparison false, as in JavaScript). -/
def isTokenExpired (store : List (String × String)) (now : Int) : Bool :=
  match localStorageGetItem store STORAGE_KEY_EXPIRES_AT with
  | none => true
  | some s =>
    if s = "" then true
    else
      match jsParseInt s with
      | none => false
      | some expiresAt => decide (now > expiresAt - bufferMs)

/-! ## Correlated transport — `SeedKey` in `src/seedkey.ts`

The transport is embedded as an explicit state machine.  The state tracks
the keys of the `pendingRequests` map (in insertion order), the multiset of
armed `setTimeout` timers (one per `sendToExtension` call, disarmed by
`clearTimeout` or by firing), a log of promise settlements, and whether the
`handleResponse` document listener is still attached.  Events are the four
ways the state changes: a `sendToExtension` registration, the arrival of a
response `CustomEvent`, the expiry of an armed timer, and `destroy()`.  A
timer-expiry event is only enabled while that request's timer is armed,
mirroring the browser guarantee that a cleared timeout callback never runs.
-/

/-- The `CustomEvent` detail delivered on the response channel
(`SeedKeyResponse` in `src/types.ts`). -/
structure SeedKeyResponseMsg where
  type : String
  version : String
  requestId : String
  success : Bool
  result : Option Val
  error : Option (String × String)
deriving Repr

/-- How a correlated request's promise settles. -/
inductive Outcome where
  | resolved : Option Val → Outcome
  | rejected : SeedKeyError → Outcome
deriving Repr

/-- State of one `SeedKey` instance's transport layer. -/
structure TransportState where
  pending : List String
  armed : List String
  settled : List (String × Outcome)
  listenerAttached : Bool
deriving Repr

/-- The state right after `new SeedKey(...)`: empty table, no timers, the
response listener attached. -/
def initialTransport : TransportState :=
  { pending := [], armed := [], settled := [], listenerAttached := true }

/-- Rejection used by the per-request timeout in `sendToExtension`. -/
def requestTimedOutError : SeedKeyError :=
  ExtensionNotFoundError "Request timed out. Make sure SeedKey extension is installed."

/-- Rejection used by `destroy()` for every pending request. -/
def sdkDestroyedError : SeedKeyError :=
  { code := ERROR_CODES.TIMEOUT
    message := "SDK destroyed"
    hint := none
    downloadUrl := none }

/-- `this.pendingRequests.set(requestId, ...)`: a new key is appended in
insertion order; an existing key keeps its position. -/
def registerPending (pending : List String) (rid : String) : List String :=
  if rid ∈ pending then pending else pending ++ [rid]

/-- `destroy()` calls `clearTimeout` on the stored timer of every entry
still in the table: erase one armed-timer occurrence per pending key. -/
def clearPendingTimers (armed : List String) (pending : List String) : List String :=
  pending.foldl (fun acc r => acc.erase r) armed

/-- The settlement `handleResponse` performs for a matched entry: resolve
with the carried result on success, otherwise reject with a structured
error built from the carried code/message (with `||` fallbacks to
`SERVER_ERROR` / `"Extension error"`). -/
def respOutcome (data : SeedKeyResponseMsg) : Outcome :=
  if data.success then Outcome.resolved data.result
  else Outcome.rejected
    { code := jsOrStr (data.error.map Prod.fst) ERROR_CODES.SERVER_ERROR
      message := jsOrStr (data.error.map Prod.snd) "Extension error"
      hint := none
      downloadUrl := none }

/-- `handleResponse` (`src/seedkey.ts`): ignore messages that are not
`SEEDKEY_RESPONSE` or correlate to no pending entry; otherwise clear the
timer, remove the entry exactly once, and settle with `respOutcome`. -/
def handleResponse (st : TransportState) (data : SeedKeyResponseMsg) : TransportState :=
  if data.type ≠ "SEEDKEY_RESPONSE" then st
  else if data.requestId ∈ st.pending then
    { st with
      armed := st.armed.erase data.requestId
      pending := st.pending.erase data.requestId
      settled := st.settled ++ [(data.requestId, respOutcome data)] }
  else st

/-- Transport events. -/
inductive TEvent where
  | send : String → TEvent
  | response : SeedKeyResponseMsg → TEvent
  | timeoutFire : String → TEvent
  | destroy : TEvent

/-- One transition of the transport state machine.

* `send rid` — the synchronous part of `sendToExtension`: arm a fresh
  timer and register the pending entry, then dispatch the request event
  (the dispatch itself does not change transport state).
* `response m` — the document dispatches a response event; it reaches
  `handleResponse` only while the listener is attached.
* `timeoutFire rid` — an armed timer for `rid` expires: the callback
  deletes the entry and rejects with `requestTimedOutError`.
* `destroy` — detach the listener, then for every pending entry clear its
  timer and reject it with `sdkDestroyedError`, and clear the table. -/
def step (st : TransportState) : TEvent → TransportState
  | .send rid =>
    { st with
      armed := st.armed ++ [rid]
      pending := registerPending st.pending rid }
  | .response m => if st.listenerAttached then handleResponse st m else st
  | .timeoutFire rid =>
    if rid ∈ st.armed then
      { st with
        armed := st.armed.erase rid
        pending := st.pending.erase rid
        settled := st.settled ++ [(rid, Outcome.rejected requestTimedOutError)] }
    else st
  | .destroy =>
    { st with
      listenerAttached := false
      armed := clearPendingTimers st.armed st.pending
      settled := st.settled ++ st.pending.map (fun r => (r, Outcome.rejected sdkDestroyedError))
      pending := [] }

/-- Run a list of events from a state. -/
def run (st : TransportState) (evs : List TEvent) : TransportState :=
  evs.foldl step st

/-- The request ids registered by the `send` events of a trace, in order. -/
def sendRids : List TEvent → List String
  | [] => []
  | TEvent.send r :: es => r :: sendRids es
  | TEvent.response _ :: es => sendRids es
  | TEvent.timeoutFire _ :: es => sendRids es
  | TEvent.destroy :: es => sendRids es

/-- How many times the promise of request `r` has settled. -/
def countSettled (r : String) (st : TransportState) : Nat :=
  st.settled.countP (fun p => decide (p.1 = r))

/-- 1 when `r` is in the in-flight table, 0 otherwise. -/
def pend01 (r : String) (st : TransportState) : Nat :=
  if r ∈ st.pending then 1 else 0

/-! ## Status probes — `isAvailable` / `isInitialized` / `getPublicKey`

Each probe is a thin call over `sendToExtension`; its value is a function
of how that correlated request settled.  The two status probes wrap the
await in `try/catch` and degrade every failure to `false`; the low-level
methods have no catch and propagate the rejection. -/

/-- `isAvailable()`: `response.available === true` on resolution, `false`
on any rejection (the `catch` branch). -/
def isAvailableResult : Outcome → Bool
  | .resolved r => truthyFieldEqTrue r "available"
  | .rejected _ => false

/-- `isInitialized()`: `response.initialized === true` on resolution,
`false` on any rejection (the `catch` branch). -/
def isInitResult : Outcome → Bool
  | .resolved r => truthyFieldEqTrue r "initialized"
  | .rejected _ => false

/-- `getPublicKey()` has no catch: a rejection of the correlated send
propagates to the caller unchanged; a resolution returns the result's
`publicKey` field. -/
def getPublicKeyResult : Outcome → Except SeedKeyError (Option Val)
  | .resolved r =>
    .ok (match r with
         | some v => getField v "publicKey"
         | none => none)
  | .rejected e => .error e

/-! ## Flow orchestrator — `register` / `authenticate` / `auth`

The three public flows are fixed sequences of external calls.  Each
external call (extension round-trip or backend POST) is an oracle in a
`FlowEnv`; a flow is the `Except`-monadic composition the source performs,
with every failure propagating by short-circuit exactly as a thrown
`SeedKeyError` does. -/

structure Challenge where
  nonce : String
  timestamp : Int
  domain : String
  action : String
  expiresAt : Int
deriving Repr, DecidableEq

structure ChallengeResponse where
  challenge : Challenge
  challengeId : String
deriving Repr, DecidableEq

structure SignChallengeResult where
  signature : String
  publicKey : String
deriving Repr, DecidableEq

structure UserInfo where
  id : String
  publicKey : String
  createdAt : String
  lastLogin : Option String
deriving Repr, DecidableEq

structure TokenInfo where
  accessToken : String
  refreshToken : String
  expiresIn : Int
deriving Repr, DecidableEq

structure AuthResult where
  success : Bool
  action : String
  user : UserInfo
  token : TokenInfo
deriving Repr, DecidableEq

structure RegisterMetadata where
  deviceName : String
  sdkVersion : String
deriving Repr, DecidableEq

/-- Body of `POST /api/v1/seedkey/register`. -/
structure RegisterBody where
  publicKey : String
  challenge : Challenge
  signature : String
  metadata : RegisterMetadata
deriving Repr, DecidableEq

/-- Body of `POST /api/v1/seedkey/verify`. -/
structure VerifyBody where
  challengeId : String
  challenge : Challenge
  signature : String
  publicKey : String
deriving Repr, DecidableEq

structure AuthMetadata where
  deviceName : Option String
deriving Repr, DecidableEq

structure AuthOptions where
  metadata : Option AuthMetadata
deriving Repr, DecidableEq

/-- The external collaborators of one flow invocation: the extension
round-trips and the backend endpoints, each returning a typed payload or
throwing a structured `SeedKeyError`. -/
structure FlowEnv where
  publicKey : Except SeedKeyError String
  challengeFor : String → String → Except SeedKeyError ChallengeResponse
  signChallenge : Challenge → Except SeedKeyError SignChallengeResult
  registerPost : RegisterBody → Except SeedKeyError AuthResult
  verifyPost : VerifyBody → Except SeedKeyError AuthResult
  deviceName : String

/-- `opts?.metadata?.deviceName || this.getDeviceName()`. -/
def chosenDeviceName (opts : Option AuthOptions) (deviceNameFallback : String) : String :=
  jsOrStr (opts.bind (fun o => o.metadata.bind (fun m => m.deviceName))) deviceNameFallback

/-- `register(opts?)`: public key → challenge (`action:"register"`) →
signature → `POST /register`, then return the backend result with `action`
forced to `"register"`. -/
def SeedKey.register (env : FlowEnv) (opts : Option AuthOptions) :
    Except SeedKeyError AuthResult := do
  let publicKey ← env.publicKey
  let chResp ← env.challengeFor publicKey "register"
  let signed ← env.signChallenge chResp.challenge
  let result ← env.registerPost
    { publicKey := publicKey
      challenge := chResp.challenge
      signature := signed.signature
      metadata :=
        { deviceName := chosenDeviceName opts env.deviceName
          sdkVersion := SDK_VERSION } }
  pure { result with action := "register" }

/-- `authenticate()`: public key → challenge (`action:"authenticate"`) →
signature → `POST /verify`, then return the backend result with `action`
forced to `"login"`. -/
def SeedKey.authenticate (env : FlowEnv) : Except SeedKeyError AuthResult := do
  let publicKey ← env.publicKey
  let chResp ← env.challengeFor publicKey "authenticate"
  let signed ← env.signChallenge chResp.challenge
  let result ← env.verifyPost
    { challengeId := chResp.challengeId
      challenge := chResp.challenge
      signature := signed.signature
      publicKey := publicKey }
  pure { result with action := "login" }

/-- `auth(opts?)`: try `authenticate()`; on a `SeedKeyError` whose code is
exactly `USER_NOT_FOUND`, return `register(opts)`; any other failure
rethrows unchanged.  A single fallback, not a loop. -/
def SeedKey.auth (env : FlowEnv) (opts : Option AuthOptions) :
    Except SeedKeyError AuthResult :=
  match SeedKey.authenticate env with
  | .ok r => .ok r
  | .error e =>
    if e.code = ERROR_CODES.USER_NOT_FOUND then SeedKey.register env opts
    else .error e

/-! ## Remote verification client — `ApiClient` in `src/api.ts` -/

/-- An HTTP response as `ApiClient` observes it: the `ok` flag, the status,
and the parsed JSON body (the test suite's "empty body" is the empty
object `{}`). -/
structure HttpResponse where
  ok : Bool
  status : Nat
  body : Val
deriving Repr

/-- `ApiClient.getUser`: a network failure of the underlying fetch is
already a `NETWORK_ERROR`-class `SeedKeyError` and propagates; a non-ok
response is translated to `new SeedKeyError(error.error || SERVER_ERROR,
error.message || 'Failed to get user')`; an ok response returns
`data.user` (possibly absent). -/
def ApiClient.getUser (fetched : Except SeedKeyError HttpResponse) :
    Except SeedKeyError (Option Val) :=
  match fetched with
  | .error e => .error e
  | .ok response =>
    if !response.ok then
      .error
        { code := jsOrStr (getStrField response.body "error") ERROR_CODES.SERVER_ERROR
          message := jsOrStr (getStrField response.body "message") "Failed to get user"
          hint := none
          downloadUrl := none }
    else .ok (getField response.body "user")

/-! ## Singleton accessors — `getSeedKey` / `resetSeedKey` -/

/-- The constructor options (`SeedKeyOptions` in `src/types.ts`). -/
structure SeedKeyOptions where
  backendUrl : String
  timeout : Option Int
  debug : Option Bool
deriving Repr

/-- JavaScript `x || dflt` on an optional number: absent and `0` are falsy. -/
def jsOrInt (v : Option Int) (dflt : Int) : Int :=
  match v with
  | some t => if t = 0 then dflt else t
  | none => dflt

/-- The observable state of one `SeedKey` instance. -/
structure SeedKeyInstance where
  backendUrl : String
  timeout : Int
  transport : TransportState
deriving Repr

/-- `new SeedKey(options)`: `backendUrl` taken as given,
`timeout = options.timeout || 60000`, fresh transport with the response
listener attached. -/
def newSeedKey (options : SeedKeyOptions) : SeedKeyInstance :=
  { backendUrl := options.backendUrl
    timeout := jsOrInt options.timeout 60000
    transport := initialTransport }

/-- `getSeedKey(options?)` over an explicit module slot: create the
default instance only when the slot is empty and options were supplied;
throw when the slot is still empty; otherwise return the slot's instance
(any newly supplied options are ignored).  Returns the returned instance
and the new slot. -/
def getSeedKey (defaultInst : Option SeedKeyInstance) (options : Option SeedKeyOptions) :
    Except String (SeedKeyInstance × Option SeedKeyInstance) :=
  let slot1 : Option SeedKeyInstance :=
    match defaultInst, options with
    | none, some o => some (newSeedKey o)
    | _, _ => defaultInst
  match slot1 with
  | none => .error "SeedKey SDK not initialized. Call getSeedKey with options first."
  | some inst => .ok (inst, slot1)

/-- `resetSeedKey()`: destroy the current instance (if any) and clear the
slot.  Returns the new slot and the destroyed instance's final state (to
observe the cancellation of its pending requests). -/
def resetSeedKey (defaultInst : Option SeedKeyInstance) :
    Option SeedKeyInstance × Option SeedKeyInstance :=
  match defaultInst with
  | none => (none, none)
  | some inst => (none, some { inst with transport := step inst.transport TEvent.destroy })

/-! ## Concrete sample data used by witnesses and counterexamples -/

/-- A well-formed successful extension response for request id `r1`. -/
def msgSuccessR1 : SeedKeyResponseMsg :=
  { type := "SEEDKEY_RESPONSE"
    version := SDK_VERSION
    requestId := "r1"
    success := true
    result := some (Val.vObj [("available", Val.vBool true)])
    error := none }

/-- A transport whose listener has been detached, with one stale pending
entry. -/
def detachedTransport : TransportState :=
  { pending := ["r9"], armed := ["r9"], settled := [], listenerAttached := false }

def sampleChallenge : Challenge :=
  { nonce := "n1", timestamp := 100, domain := "example.com",
    action := "authenticate", expiresAt := 200 }

def sampleUser : UserInfo :=
  { id := "u1", publicKey := "k1", createdAt := "2025-01-01", lastLogin := none }

def sampleToken : TokenInfo :=
  { accessToken := "a", refreshToken := "r", expiresIn := 3600 }

/-- A backend reply whose own `action` field is a value the orchestrator
must override. -/
def sampleBackendResult : AuthResult :=
  { success := true, action := "backend-says-otherwise", user := sampleUser,
    token := sampleToken }

def userNotFoundErr : SeedKeyError :=
  { code := ERROR_CODES.USER_NOT_FOUND, message := "User not found",
    hint := none, downloadUrl := none }

def serverErr : SeedKeyError :=
  { code := ERROR_CODES.SERVER_ERROR, message := "Internal error",
    hint := none, downloadUrl := none }

def networkErr : SeedKeyError :=
  { code := ERROR_CODES.NETWORK_ERROR, message := "Network error: down",
    hint := none, downloadUrl := none }

/-- An environment where every collaborator succeeds. -/
def envAllOk : FlowEnv :=
  { publicKey := .ok "k1"
    challengeFor := fun _ _ => .ok { challenge := sampleChallenge, challengeId := "c1" }
    signChallenge := fun _ => .ok { signature := "s1", publicKey := "k1" }
    registerPost := fun _ => .ok sampleBackendResult
    verifyPost := fun _ => .ok sampleBackendResult
    deviceName := "Chrome on Linux" }

/-- Authenticate fails with `USER_NOT_FOUND` (so register, which also uses
the extension, fails the same way in `envUserNotFound`). -/
def envUserNotFound : FlowEnv :=
  { envAllOk with verifyPost := fun _ => .error userNotFoundErr }

/-- Authenticate fails with `SERVER_ERROR`. -/
def envServerErr : FlowEnv :=
  { envAllOk with verifyPost := fun _ => .error serverErr }

/-- Authenticate fails with `USER_NOT_FOUND`; the register fallback then
fails with `USER_NOT_FOUND` as well (exercising the no-loop conjunct). -/
def envDoubleNotFound : FlowEnv :=
  { envAllOk with
    verifyPost := fun _ => .error userNotFoundErr
    registerPost := fun _ => .error userNotFoundErr }

/-! ### Exactly-once settlement machinery -/

/-- The settlement potential of request `r`: settlements already fired,
plus the pending entry that can still fire, plus the registrations the
remaining trace may still perform, never exceed one; additionally the
table keys are distinct and `r`'s armed timers are bounded by its table
entry (a timer for `r` is only armed while `r` is in the table). -/
def settleInv (r : String) (st : TransportState) (budget : Nat) : Prop :=
  st.pending.Nodup ∧
  st.armed.count r ≤ pend01 r st ∧
  countSettled r st + pend01 r st + budget ≤ 1

lemma countP_fst_map_const (r : String) (o : Outcome) (l : List String) :
    (l.map (fun q => (q, o))).countP (fun p => decide (p.1 = r)) = l.count r := by
  induction l with
  | nil => simp
  | cons x t ih =>
    by_cases hx : x = r <;>
      simp [List.countP_cons, List.count_cons, hx, ih]

lemma count_clearPendingTimers (r : String) :
    ∀ (ps armed : List String),
      (clearPendingTimers armed ps).count r = armed.count r - ps.count r := by
  intro ps
  induction ps with
  | nil => intro armed; simp [clearPendingTimers]
  | cons x t ih =>
    intro armed
    have hstep : clearPendingTimers armed (x :: t) = clearPendingTimers (armed.erase x) t := by
      simp [clearPendingTimers]
    rw [hstep, ih (armed.erase x), List.count_erase, List.count_cons]
    by_cases hx : (x == r) = true
    · simp only [hx, if_true]
      omega
    · simp only [hx, if_false]
      omega

lemma sendRids_cons (e : TEvent) (es : List TEvent) :
    sendRids (e :: es) = sendRids [e] ++ sendRids es := by
  cases e <;> simp [sendRids]

lemma settleInv_step (r : String) (st : TransportState) (e : TEvent) (b : Nat)
    (h : settleInv r st ((sendRids [e]).count r + b)) :
    settleInv r (step st e) b := by
  obtain ⟨hnd, harm, hsum⟩ := h
  cases e with
  | send rid =>
    simp only [sendRids, List.count_cons, List.count_nil, Nat.zero_add] at hsum
    by_cases hr : rid = r
    · subst hr
      by_cases hm : rid ∈ st.pending
      · simp [pend01, hm] at hsum
        omega
      · simp only [pend01, hm, if_false] at hsum harm
        simp only [beq_self_eq_true, if_true] at hsum
        refine ⟨?_, ?_, ?_⟩
        · simp [step, registerPending, hm, List.nodup_append, hnd]
        · simp [step, registerPending, pend01, hm, Nat.le_of_eq, harm,
            List.count_append, Nat.le_antisymm (harm) (Nat.zero_le _)]
        · have hset : countSettled rid (step st (TEvent.send rid)) = countSettled rid st := by
            simp [step, countSettled]
          have hpend : pend01 rid (step st (TEvent.send rid)) = 1 := by
            simp [step, registerPending, pend01, hm]
          rw [hset, hpend]
          omega
    · have hne : ¬ (rid == r) = true := by simp [hr]
      simp only [hne, if_false, Nat.add_zero] at hsum
      have hset : countSettled r (step st (TEvent.send rid)) = countSettled r st := by
        simp [step, countSettled]
      have hpend : pend01 r (step st (TEvent.send rid)) = pend01 r st := by
        by_cases hm : rid ∈ st.pending <;>
          simp [step, registerPending, pend01, hm, hr, Ne.symm hr]
      have hcnt : (step st (TEvent.send rid)).armed.count r = st.armed.count r := by
        simp [step, List.count_append, List.count_cons, hne]
      refine ⟨?_, ?_, ?_⟩
      · by_cases hm : rid ∈ st.pending <;>
          simp [step, registerPending, hm, List.nodup_append, hnd]
      · rw [hcnt, hpend]; exact harm
      · rw [hset, hpend]; omega
  | response m =>
    simp only [sendRids, List.count_nil, Nat.zero_add] at hsum
    by_cases hl : st.listenerAttached
    · by_cases ht : m.type ≠ "SEEDKEY_RESPONSE"
      · simpa [step, handleResponse, hl, ht] using ⟨hnd, harm, hsum⟩
      · by_cases hq : m.requestId ∈ st.pending
        · have hstep : step st (TEvent.response m) =
              { st with
                armed := st.armed.erase m.requestId
                pending := st.pending.erase m.requestId
                settled := st.settled ++ [(m.requestId, respOutcome m)] } := by
            simp [step, handleResponse, hl, ht, hq]
          by_cases hqr : m.requestId = r
          · have hm : r ∈ st.pending := hqr ▸ hq
            have hp1 : pend01 r st = 1 := by simp [pend01, hm]
            have hpend : pend01 r (step st (TEvent.response m)) = 0 := by
              rw [hstep]
              simp only [pend01, hqr]
              rw [if_neg hnd.not_mem_erase]
            refine ⟨?_, ?_, ?_⟩
            · rw [hstep]
              simpa using hnd.erase m.requestId
            · have hcnt : (step st (TEvent.response m)).armed.count r =
                  st.armed.count r - 1 := by
                rw [hstep]
                simp [hqr]
              rw [hcnt, hpend]
              omega
            · have hset : countSettled r (step st (TEvent.response m)) =
                  countSettled r st + 1 := by
                rw [hstep]
                simp [countSettled, List.countP_append, List.countP_cons, hqr]
              rw [hset, hpend]
              rw [hp1] at hsum
              omega
          · have hrq : r ≠ m.requestId := fun hh => hqr hh.symm
            have hpend : pend01 r (step st (TEvent.response m)) = pend01 r st := by
              rw [hstep]
              simp only [pend01, List.mem_erase_of_ne hrq]
            have hset : countSettled r (step st (TEvent.response m)) = countSettled r st := by
              rw [hstep]
              simp [countSettled, List.countP_append, List.countP_cons, hqr]
            have hcnt : (step st (TEvent.response m)).armed.count r = st.armed.count r := by
              rw [hstep]
              exact List.count_erase_of_ne hrq st.armed
            refine ⟨?_, ?_, ?_⟩
            · rw [hstep]
              simpa using hnd.erase m.requestId
            · rw [hcnt, hpend]; exact harm
            · rw [hset, hpend]; omega
        · simpa [step, handleResponse, hl, hq] using ⟨hnd, harm, hsum⟩
    · simpa [step, hl] using ⟨hnd, harm, hsum⟩
  | timeoutFire rid =>
    simp only [sendRids, List.count_nil, Nat.zero_add] at hsum
    by_cases ha : rid ∈ st.armed
    · have hstep : step st (TEvent.timeoutFire rid) =
          { st with
            armed := st.armed.erase rid
            pending := st.pending.erase rid
            settled := st.settled ++ [(rid, Outcome.rejected requestTimedOutError)] } := by
        simp [step, ha]
      by_cases hr : rid = r
      · subst hr
        have hcp : 0 < st.armed.count rid := List.count_pos_iff.mpr ha
        have hm : rid ∈ st.pending := by
          by_contra hm
          simp [pend01, hm] at harm
          omega
        have hp1 : pend01 rid st = 1 := by simp [pend01, hm]
        have hpend : pend01 rid (step st (TEvent.timeoutFire rid)) = 0 := by
          rw [hstep]
          simp only [pend01]
          rw [if_neg hnd.not_mem_erase]
        refine ⟨?_, ?_, ?_⟩
        · rw [hstep]
          simpa using hnd.erase rid
        · have hcnt : (step st (TEvent.timeoutFire rid)).armed.count rid =
              st.armed.count rid - 1 := by
            rw [hstep]
            simp
          rw [hcnt, hpend]
          omega
        · have hset : countSettled rid (step st (TEvent.timeoutFire rid)) =
              countSettled rid st + 1 := by
            rw [hstep]
            simp [countSettled, List.countP_append, List.countP_cons]
          rw [hset, hpend]
          rw [hp1] at hsum
          omega
      · have hrq : r ≠ rid := Ne.symm hr
        have hpend : pend01 r (step st (TEvent.timeoutFire rid)) = pend01 r st := by
          rw [hstep]
          simp only [pend01, List.mem_erase_of_ne hrq]
        have hset : countSettled r (step st (TEvent.timeoutFire rid)) = countSettled r st := by
          rw [hstep]
          simp [countSettled, List.countP_append, List.countP_cons, hr]
        have hcnt : (step st (TEvent.timeoutFire rid)).armed.count r = st.armed.count r := by
          rw [hstep]
          exact List.count_erase_of_ne hrq st.armed
        refine ⟨?_, ?_, ?_⟩
        · rw [hstep]
          simpa using hnd.erase rid
        · rw [hcnt, hpend]; exact harm
        · rw [hset, hpend]; omega
    · simpa [step, ha] using ⟨hnd, harm, hsum⟩
  | destroy =>
    simp only [sendRids, List.count_nil, Nat.zero_add] at hsum
    have hset : countSettled r (step st TEvent.destroy) =
        countSettled r st + st.pending.count r := by
      simp only [step, countSettled, List.countP_append]
      rw [countP_fst_map_const]
    have hpend : pend01 r (step st TEvent.destroy) = 0 := by
      simp [step, pend01]
    have hcnt : (step st TEvent.destroy).armed.count r =
        st.armed.count r - st.pending.count r := by
      simp [step, count_clearPendingTimers]
    by_cases hm : r ∈ st.pending
    · have hc1 : st.pending.count r = 1 := List.count_eq_one_of_mem hnd hm
      have hp1 : pend01 r st = 1 := by simp [pend01, hm]
      refine ⟨by simp [step], ?_, ?_⟩
      · rw [hcnt, hpend, hc1]
        rw [hp1] at harm
        omega
      · rw [hset, hpend, hc1]
        rw [hp1] at hsum
        omega
    · have hc0 : st.pending.count r = 0 := List.count_eq_zero_of_not_mem hm
      have hp0 : pend01 r st = 0 := by simp [pend01, hm]
      refine ⟨by simp [step], ?_, ?_⟩
      · rw [hcnt, hpend, hc0]
        rw [hp0] at harm
        omega
      · rw [hset, hpend, hc0]
        rw [hp0] at hsum
        omega
lemma pending_nodup_step (st : TransportState) (e : TEvent) (h : st.pending.Nodup) :
    (step st e).pending.Nodup := by
  cases e with
  | send rid =>
    by_cases hm : rid ∈ st.pending <;>
      simp [step, registerPending, hm, List.nodup_append, h]
  | response m =>
    by_cases hl : st.listenerAttached
    · by_cases ht : m.type ≠ "SEEDKEY_RESPONSE"
      · simpa [step, handleResponse, hl, ht] using h
      · by_cases hq : m.requestId ∈ st.pending
        · have hstep : step st (TEvent.response m) =
              { st with
                armed := st.armed.erase m.requestId
                pending := st.pending.erase m.requestId
                settled := st.settled ++ [(m.requestId, respOutcome m)] } := by
            simp [step, handleResponse, hl, ht, hq]
          rw [hstep]
          simpa using h.erase m.requestId
        · simpa [step, handleResponse, hl, hq] using h
    · simpa [step, hl] using h
  | timeoutFire rid =>
    by_cases ha : rid ∈ st.armed
    · have hstep : step st (TEvent.timeoutFire rid) =
          { st with
            armed := st.armed.erase rid
            pending := st.pending.erase rid
            settled := st.settled ++ [(rid, Outcome.rejected requestTimedOutError)] } := by
        simp [step, ha]
      rw [hstep]
      simpa using h.erase rid
    · simpa [step, ha] using h
  | destroy => simp [step]

lemma pending_nodup_run (evs : List TEvent) (st : TransportState) (h : st.pending.Nodup) :
    (run st evs).pending.Nodup := by
  induction evs generalizing st with
  | nil => simpa [run] using h
  | cons e es ih =>
    have h2 := pending_nodup_step st e h
    simpa [run] using ih (step st e) h2

/-- Erasing, in order, every element of a duplicate-free list from itself
leaves nothing: `destroy` disarms every timer it owns. -/
lemma clearPendingTimers_self : ∀ l : List String, l.Nodup → clearPendingTimers l l = [] := by
  intro l
  induction l with
  | nil => intro h; simp [clearPendingTimers]
  | cons x t ih =>
    intro h
    have hstep : clearPendingTimers (x :: t) (x :: t) = clearPendingTimers t t := by
      simp [clearPendingTimers, List.erase_cons_head]
    rw [hstep]
    exact ih (List.nodup_cons.mp h).2

/-- While request ids are never reused (`generateRequestId` uniqueness),
the armed timers coincide with the in-flight table keys: every path that
removes a table entry also clears that entry's timer. -/
lemma run_armed_eq_pending :
    ∀ (evs : List TEvent) (st : TransportState),
      st.armed = st.pending → st.pending.Nodup → (sendRids evs).Nodup →
      (∀ x ∈ sendRids evs, x ∉ st.pending) →
      (run st evs).armed = (run st evs).pending := by
  intro evs
  induction evs with
  | nil =>
    intro st h1 _ _ _
    simpa [run] using h1
  | cons e es ih =>
    intro st h1 h2 h3 h4
    have hrun : run st (e :: es) = run (step st e) es := by simp [run]
    rw [hrun]
    have h2' := pending_nodup_step st e h2
    cases e with
    | send rid =>
      have hrid : rid ∉ st.pending := h4 rid (by simp [sendRids])
      have hse : step st (TEvent.send rid) =
          { st with armed := st.armed ++ [rid], pending := st.pending ++ [rid] } := by
        simp [step, registerPending, hrid]
      have hcons : (rid :: sendRids es).Nodup := by simpa [sendRids] using h3
      refine ih (step st (TEvent.send rid)) ?_ h2' (List.nodup_cons.mp hcons).2 ?_
      · rw [hse]
        show st.armed ++ [rid] = st.pending ++ [rid]
        rw [h1]
      · intro x hx
        rw [hse]
        simp only [List.mem_append, List.mem_singleton]
        rintro (hc | hc)
        · exact h4 x (by simp [sendRids, hx]) hc
        · exact (List.nodup_cons.mp hcons).1 (hc ▸ hx)
    | response m =>
      have hfacts : (step st (TEvent.response m)).armed = (step st (TEvent.response m)).pending ∧
          (step st (TEvent.response m)).pending ⊆ st.pending := by
        by_cases hl : st.listenerAttached
        · by_cases ht : m.type ≠ "SEEDKEY_RESPONSE"
          · constructor
            · simpa [step, handleResponse, hl, ht] using h1
            · intro x hx
              simpa [step, handleResponse, hl, ht] using hx
          · by_cases hq : m.requestId ∈ st.pending
            · have hstep : step st (TEvent.response m) =
                  { st with
                    armed := st.armed.erase m.requestId
                    pending := st.pending.erase m.requestId
                    settled := st.settled ++ [(m.requestId, respOutcome m)] } := by
                simp [step, handleResponse, hl, ht, hq]
              rw [hstep]
              constructor
              · show st.armed.erase m.requestId = st.pending.erase m.requestId
                rw [h1]
              · exact List.erase_subset m.requestId st.pending
            · constructor
              · simpa [step, handleResponse, hl, hq] using h1
              · intro x hx
                simpa [step, handleResponse, hl, hq] using hx
        · constructor
          · simpa [step, hl] using h1
          · intro x hx
            simpa [step, hl] using hx
      refine ih (step st (TEvent.response m)) hfacts.1 h2' (by simpa [sendRids] using h3) ?_
      intro x hx hc
      exact h4 x (by simpa [sendRids] using hx) (hfacts.2 hc)
    | timeoutFire rid =>
      have hfacts : (step st (TEvent.timeoutFire rid)).armed =
            (step st (TEvent.timeoutFire rid)).pending ∧
          (step st (TEvent.timeoutFire rid)).pending ⊆ st.pending := by
        by_cases ha : rid ∈ st.armed
        · have hstep : step st (TEvent.timeoutFire rid) =
              { st with
                armed := st.armed.erase rid
                pending := st.pending.erase rid
                settled := st.settled ++ [(rid, Outcome.rejected requestTimedOutError)] } := by
            simp [step, ha]
          rw [hstep]
          constructor
          · show st.armed.erase rid = st.pending.erase rid
            rw [h1]
          · exact List.erase_subset rid st.pending
        · constructor
          · simpa [step, ha] using h1
          · intro x hx
            simpa [step, ha] using hx
      refine ih (step st (TEvent.timeoutFire rid)) hfacts.1 h2' (by simpa [sendRids] using h3) ?_
      intro x hx hc
      exact h4 x (by simpa [sendRids] using hx) (hfacts.2 hc)
    | destroy =>
      have hda : (step st TEvent.destroy).armed = [] := by
        show clearPendingTimers st.armed st.pending = []
        rw [h1]
        exact clearPendingTimers_self st.pending h2
      have hdp : (step st TEvent.destroy).pending = [] := by simp [step]
      refine ih (step st TEvent.destroy) ?_ h2' (by simpa [sendRids] using h3) ?_
      · rw [hda, hdp]
      · intro x hx
        rw [hdp]
        simp

/-- `handleResponse` ignores a message whose correlation id is not in the
in-flight table: the state is untouched (a late or foreign response is a
no-op). -/
lemma response_unknown_noop (st : TransportState) (m : SeedKeyResponseMsg)
    (h : m.requestId ∉ st.pending) : step st (TEvent.response m) = st := by
  by_cases hl : st.listenerAttached
  · by_cases ht : m.type ≠ "SEEDKEY_RESPONSE" <;>
      simp [step, handleResponse, hl, ht, h]
  · simp [step, hl]

lemma settleInv_run (r : String) :
    ∀ (evs : List TEvent) (st : TransportState) (b : Nat),
      settleInv r st ((sendRids evs).count r + b) → settleInv r (run st evs) b := by
  intro evs
  induction evs with
  | nil =>
    intro st b h
    simpa [run, sendRids] using h
  | cons e es ih =>
    intro st b h
    rw [sendRids_cons, List.count_append, Nat.add_assoc] at h
    have h2 := settleInv_step r st e ((sendRids es).count r + b) h
    have h3 := ih (step st e) b h2
    simpa [run] using h3

/-- Once the listener is detached it stays detached, and from then on the
only settlements any trace can add are timeout rejections and destroy
rejections — a matching response never settles anything. -/
lemma detached_run_facts :
    ∀ (evs : List TEvent) (st : TransportState), st.listenerAttached = false →
      (run st evs).listenerAttached = false ∧
      ∀ p ∈ (run st evs).settled,
        p ∈ st.settled ∨ p.2 = Outcome.rejected requestTimedOutError ∨
          p.2 = Outcome.rejected sdkDestroyedError := by
  intro evs
  induction evs with
  | nil =>
    intro st hl
    constructor
    · simpa [run] using hl
    · intro p hp
      left
      simpa [run] using hp
  | cons e es ih =>
    intro st hl
    have hstep : (step st e).listenerAttached = false ∧
        ∀ p ∈ (step st e).settled,
          p ∈ st.settled ∨ p.2 = Outcome.rejected requestTimedOutError ∨
            p.2 = Outcome.rejected sdkDestroyedError := by
      cases e with
      | send rid =>
        constructor
        · simpa [step] using hl
        · intro p hp
          left
          simpa [step] using hp
      | response m =>
        rw [show step st (TEvent.response m) = st by simp [step, hl]]
        exact ⟨hl, fun p hp => Or.inl hp⟩
      | timeoutFire rid =>
        by_cases ha : rid ∈ st.armed
        · have hst : step st (TEvent.timeoutFire rid) =
              { st with
                armed := st.armed.erase rid
                pending := st.pending.erase rid
                settled := st.settled ++ [(rid, Outcome.rejected requestTimedOutError)] } := by
            simp [step, ha]
          rw [hst]
          refine ⟨hl, fun p hp => ?_⟩
          simp only [List.mem_append, List.mem_singleton] at hp
          rcases hp with hp | hp
          · exact Or.inl hp
          · subst hp
            exact Or.inr (Or.inl rfl)
        · rw [show step st (TEvent.timeoutFire rid) = st by simp [step, ha]]
          exact ⟨hl, fun p hp => Or.inl hp⟩
      | destroy =>
        refine ⟨by simp [step], fun p hp => ?_⟩
        simp only [step, List.mem_append] at hp
        rcases hp with hp | hp
        · exact Or.inl hp
        · rcases List.mem_map.mp hp with ⟨q, hq, rfl⟩
          exact Or.inr (Or.inr rfl)
    have hrun : run st (e :: es) = run (step st e) es := by simp [run]
    rw [hrun]
    obtain ⟨ih1, ih2⟩ := ih (step st e) hstep.1
    refine ⟨ih1, fun p hp => ?_⟩
    rcases ih2 p hp with h | h | h
    · exact hstep.2 p h
    · exact Or.inr (Or.inl h)
    · exact Or.inr (Or.inr h)

/-- `=== true` field checks, characterised. -/
lemma truthyFieldEqTrue_iff (r : Option Val) (k : String) :
    truthyFieldEqTrue r k = true ↔
      ∃ v, r = some v ∧ getField v k = some (Val.vBool true) := by
  cases r with
  | none => simp [truthyFieldEqTrue]
  | some v =>
    simp only [truthyFieldEqTrue, Option.some.injEq]
    constructor
    · intro h
      cases hg : getField v k with
      | none => simp [hg] at h
      | some w =>
        cases w with
        | vBool b =>
          cases b with
          | true => exact ⟨v, rfl, hg⟩
          | false => simp [hg] at h
        | vNull => simp [hg] at h
        | vNum n => simp [hg] at h
        | vStr s => simp [hg] at h
        | vObj fs => simp [hg] at h
    · rintro ⟨v2, rfl, hg⟩
      simp [hg]

lemma exbind_ok {α β : Type} (a : α) (f : α → Except SeedKeyError β) :
    (Except.ok a : Except SeedKeyError α) >>= f = f a := rfl

lemma expure {α : Type} (a : α) :
    (pure a : Except SeedKeyError α) = Except.ok a := rfl

/-! ## Claim theorems -/

/-- C1: for every correlated request the promise settles at most once, via
whichever of matching response, timeout expiry, or destroy occurs first:
over any trace that registers a request id at most once, that id's
settlement count never exceeds one; a response whose id is no longer in
the pending table is a no-op (late responses after timeout or destroy
change nothing); destroy detaches the listener, after which dispatched
responses do not reach `handleResponse` at all. -/
theorem exactly_once_settlement :
    (∀ (evs : List TEvent) (r : String),
        (sendRids evs).count r ≤ 1 →
        countSettled r (run initialTransport evs) ≤ 1) ∧
    (∀ (st : TransportState) (m : SeedKeyResponseMsg),
        m.requestId ∉ st.pending → step st (TEvent.response m) = st) ∧
    (∀ st : TransportState, (step st TEvent.destroy).listenerAttached = false) ∧
    (∀ (st : TransportState) (m : SeedKeyResponseMsg),
        st.listenerAttached = false → step st (TEvent.response m) = st) := by
  refine ⟨?_, response_unknown_noop, ?_, ?_⟩
  · intro evs r hcount
    have h0 : settleInv r initialTransport
        ((sendRids evs).count r + (1 - (sendRids evs).count r)) := by
      refine ⟨by simp [initialTransport], by simp [initialTransport, pend01], ?_⟩
      have hs : countSettled r initialTransport = 0 := by simp [initialTransport, countSettled]
      have hp : pend01 r initialTransport = 0 := by simp [initialTransport, pend01]
      rw [hs, hp]
      omega
    have h1 := settleInv_run r evs initialTransport (1 - (sendRids evs).count r) h0
    obtain ⟨-, -, hsum⟩ := h1
    omega
  · intro st
    simp [step]
  · intro st m hl
    simp [step, hl]

/-- C1 witness: a trace that sends `r1` once, times it out, and then sees
a late matching response settles `r1` at most once; a response for an
unknown id leaves the fresh state unchanged; destroy detaches; a detached
state ignores responses. -/
theorem exactly_once_settlement_witness :
    countSettled "r1" (run initialTransport
      [TEvent.send "r1", TEvent.timeoutFire "r1", TEvent.response msgSuccessR1]) ≤ 1 ∧
    step initialTransport (TEvent.response msgSuccessR1) = initialTransport ∧
    (step initialTransport TEvent.destroy).listenerAttached = false ∧
    step detachedTransport (TEvent.response msgSuccessR1) = detachedTransport :=
  ⟨exactly_once_settlement.1
      [TEvent.send "r1", TEvent.timeoutFire "r1", TEvent.response msgSuccessR1] "r1"
      (by decide),
   exactly_once_settlement.2.1 initialTransport msgSuccessR1 (by decide),
   exactly_once_settlement.2.2.1 initialTransport,
   exactly_once_settlement.2.2.2 detachedTransport msgSuccessR1 rfl⟩

/-- C5: `destroy()` rejects every currently pending request with the
"SDK destroyed" error (in table order), clears the table, detaches the
listener, clears every timer it owns (with never-reused request ids the
armed-timer list empties), and is idempotent — a second `destroy`, e.g.
from within a pending request's own continuation, changes nothing. -/
theorem destroy_spec :
    (∀ st : TransportState,
        (step st TEvent.destroy).settled =
          st.settled ++ st.pending.map (fun r => (r, Outcome.rejected sdkDestroyedError)) ∧
        (step st TEvent.destroy).pending = [] ∧
        (step st TEvent.destroy).listenerAttached = false ∧
        step (step st TEvent.destroy) TEvent.destroy = step st TEvent.destroy) ∧
    (∀ evs : List TEvent, (sendRids evs).Nodup →
        (step (run initialTransport evs) TEvent.destroy).armed = []) ∧
    sdkDestroyedError.message = "SDK destroyed" := by
  refine ⟨?_, ?_, rfl⟩
  · intro st
    refine ⟨rfl, rfl, rfl, ?_⟩
    show step { st with
        listenerAttached := false
        armed := clearPendingTimers st.armed st.pending
        settled := st.settled ++ st.pending.map (fun r => (r, Outcome.rejected sdkDestroyedError))
        pending := [] } TEvent.destroy = _
    simp [step, clearPendingTimers]
  · intro evs h
    have h1 : (run initialTransport evs).armed = (run initialTransport evs).pending :=
      run_armed_eq_pending evs initialTransport rfl (by simp [initialTransport]) h
        (by simp [initialTransport])
    have h2 : (run initialTransport evs).pending.Nodup :=
      pending_nodup_run evs initialTransport (by simp [initialTransport])
    show clearPendingTimers (run initialTransport evs).armed
        (run initialTransport evs).pending = []
    rw [h1]
    exact clearPendingTimers_self _ h2

/-- C5 witness: destroying after a single send clears all timers; on a
concrete state with one pending request, destroy rejects it with the
destroyed error and empties the table. -/
theorem destroy_spec_witness :
    (step (run initialTransport [TEvent.send "r1"]) TEvent.destroy).armed = [] ∧
    (step (run initialTransport [TEvent.send "r1"]) TEvent.destroy).settled =
      (run initialTransport [TEvent.send "r1"]).settled ++
        (run initialTransport [TEvent.send "r1"]).pending.map
          (fun r => (r, Outcome.rejected sdkDestroyedError)) :=
  ⟨destroy_spec.2.1 [TEvent.send "r1"] (by decide),
   (destroy_spec.1 (run initialTransport [TEvent.send "r1"])).1⟩

/-- C6: when a correlated request's timer expires, the transport removes
the pending entry and rejects with `requestTimedOutError`, which is an
extension-not-found-class error: code `EXTENSION_NOT_FOUND` (never the
generic `TIMEOUT` code), carrying remediation text and download
metadata. -/
theorem timeout_rejects_as_extension_not_found :
    (∀ (st : TransportState) (rid : String), rid ∈ st.armed →
        (step st (TEvent.timeoutFire rid)).settled =
          st.settled ++ [(rid, Outcome.rejected requestTimedOutError)] ∧
        (step st (TEvent.timeoutFire rid)).pending = st.pending.erase rid) ∧
    requestTimedOutError.code = ERROR_CODES.EXTENSION_NOT_FOUND ∧
    requestTimedOutError.code ≠ ERROR_CODES.TIMEOUT ∧
    requestTimedOutError.message =
      "Request timed out. Make sure SeedKey extension is installed." ∧
    requestTimedOutError.hint = some "Install SeedKey browser extension" ∧
    requestTimedOutError.downloadUrl = some EXTENSION_DOWNLOAD_URL := by
  refine ⟨?_, rfl, by decide, rfl, rfl, rfl⟩
  intro st rid ha
  constructor <;> simp [step, ha]

/-- C6 witness: a sent request whose timer fires is rejected with the
extension-not-found error. -/
theorem timeout_rejects_witness :
    (step (run initialTransport [TEvent.send "r1"]) (TEvent.timeoutFire "r1")).settled =
      (run initialTransport [TEvent.send "r1"]).settled ++
        [("r1", Outcome.rejected requestTimedOutError)] :=
  (timeout_rejects_as_extension_not_found.1 (run initialTransport [TEvent.send "r1"]) "r1"
    (by decide)).1

/-- C8 counterexample: on the concrete trace destroy-then-send, the claim
fails: the send after destroy registers a fresh entry `r1` in the
in-flight table (so registration after teardown is possible and the call
does not fail fast), and a subsequently dispatched matching response does
not settle the request (count stays 0), whereas on a freshly constructed
instance the same send-then-response trace settles it exactly once — so
the post-destroy behaviour also differs from a fresh instance. -/
theorem send_after_destroy_counterexample :
    (run initialTransport [TEvent.destroy, TEvent.send "r1"]).pending = ["r1"] ∧
    countSettled "r1"
      (run initialTransport
        [TEvent.destroy, TEvent.send "r1", TEvent.response msgSuccessR1]) = 0 ∧
    countSettled "r1"
      (run initialTransport [TEvent.send "r1", TEvent.response msgSuccessR1]) = 1 := by
  refine ⟨by decide, by decide, by decide⟩

/-- C8 amended: after destroy, `sendToExtension` still registers new
entries in the in-flight table (no fail-fast); but the listener stays
detached forever, dispatched responses are ignored, and every settlement
added after the detach is a timeout rejection or a destroy rejection —
stale handlers are never resurrected and no post-destroy request can
resolve. -/
theorem send_after_destroy_amended :
    (∀ (st : TransportState) (rid : String), rid ∈ (step st (TEvent.send rid)).pending) ∧
    (∀ (st : TransportState) (m : SeedKeyResponseMsg), st.listenerAttached = false →
        step st (TEvent.response m) = st) ∧
    (∀ (evs : List TEvent) (st : TransportState), st.listenerAttached = false →
        (run st evs).listenerAttached = false ∧
        ∀ p ∈ (run st evs).settled,
          p ∈ st.settled ∨ p.2 = Outcome.rejected requestTimedOutError ∨
            p.2 = Outcome.rejected sdkDestroyedError) := by
  refine ⟨?_, ?_, detached_run_facts⟩
  · intro st rid
    by_cases hm : rid ∈ st.pending <;> simp [step, registerPending, hm]
  · intro st m hl
    simp [step, hl]

/-- C8 amended witness: on a detached state, a send still registers, a
response is ignored, and a later trace stays detached. -/
theorem send_after_destroy_amended_witness :
    ("r1" ∈ (step detachedTransport (TEvent.send "r1")).pending) ∧
    step detachedTransport (TEvent.response msgSuccessR1) = detachedTransport ∧
    (run detachedTransport [TEvent.timeoutFire "r9"]).listenerAttached = false :=
  ⟨send_after_destroy_amended.1 detachedTransport "r1",
   send_after_destroy_amended.2.1 detachedTransport msgSuccessR1 rfl,
   (send_after_destroy_amended.2.2 [TEvent.timeoutFire "r9"] detachedTransport rfl).1⟩

/-- C9: the status probes never reject — every rejection of the underlying
correlated send (timeout, custodian error, destroy) degrades to `false`;
on a resolution, `isAvailable` is `true` exactly when the result's
`available` field is the boolean `true` (resp. `initialized`), and `false`
for any other result shape; by contrast a low-level call such as
`getPublicKey` propagates the rejection unchanged. -/
theorem probes_swallow_errors :
    (∀ e : SeedKeyError, isAvailableResult (Outcome.rejected e) = false) ∧
    isAvailableResult (Outcome.rejected requestTimedOutError) = false ∧
    isAvailableResult (Outcome.rejected sdkDestroyedError) = false ∧
    (∀ o : Outcome, isAvailableResult o = true ↔
        ∃ v, o = Outcome.resolved (some v) ∧
          getField v "available" = some (Val.vBool true)) ∧
    (∀ e : SeedKeyError, isInitResult (Outcome.rejected e) = false) ∧
    (∀ o : Outcome, isInitResult o = true ↔
        ∃ v, o = Outcome.resolved (some v) ∧
          getField v "initialized" = some (Val.vBool true)) ∧
    (∀ e : SeedKeyError, getPublicKeyResult (Outcome.rejected e) = Except.error e) := by
  refine ⟨fun e => rfl, rfl, rfl, ?_, fun e => rfl, ?_, fun e => rfl⟩
  · intro o
    cases o with
    | resolved r => simp [isAvailableResult, truthyFieldEqTrue_iff]
    | rejected e => simp [isAvailableResult]
  · intro o
    cases o with
    | resolved r => simp [isInitResult, truthyFieldEqTrue_iff]
    | rejected e => simp [isInitResult]

/-- C2: `auth(opts?)` runs `authenticate()` first; exactly when that fails
with a `SeedKeyError` of code `USER_NOT_FOUND` it returns
`register(opts)`; any other failure propagates unchanged, and a failure of
the nested register attempt (even with code `USER_NOT_FOUND` again)
propagates without retrying — a single fallback, no loop. -/
theorem auth_fallback_spec :
    (∀ (env : FlowEnv) (opts : Option AuthOptions) (r : AuthResult),
        SeedKey.authenticate env = Except.ok r → SeedKey.auth env opts = Except.ok r) ∧
    (∀ (env : FlowEnv) (opts : Option AuthOptions) (e : SeedKeyError),
        SeedKey.authenticate env = Except.error e →
        e.code = ERROR_CODES.USER_NOT_FOUND →
        SeedKey.auth env opts = SeedKey.register env opts) ∧
    (∀ (env : FlowEnv) (opts : Option AuthOptions) (e : SeedKeyError),
        SeedKey.authenticate env = Except.error e →
        e.code ≠ ERROR_CODES.USER_NOT_FOUND →
        SeedKey.auth env opts = Except.error e) ∧
    (∀ (env : FlowEnv) (opts : Option AuthOptions) (e e2 : SeedKeyError),
        SeedKey.authenticate env = Except.error e →
        e.code = ERROR_CODES.USER_NOT_FOUND →
        SeedKey.register env opts = Except.error e2 →
        SeedKey.auth env opts = Except.error e2) := by
  refine ⟨?_, ?_, ?_, ?_⟩
  · intro env opts r h
    simp [SeedKey.auth, h]
  · intro env opts e h hc
    simp [SeedKey.auth, h, hc]
  · intro env opts e h hc
    simp [SeedKey.auth, h, hc]
  · intro env opts e e2 h hc h2
    simp [SeedKey.auth, h, hc, h2]

/-- C2 witness: concrete environments exercising success, the
`USER_NOT_FOUND` fallback, a `SERVER_ERROR` that propagates without
register, and a nested register failure that propagates un-retried. -/
theorem auth_fallback_witness :
    SeedKey.auth envAllOk none = Except.ok { sampleBackendResult with action := "login" } ∧
    SeedKey.auth envUserNotFound none = SeedKey.register envUserNotFound none ∧
    SeedKey.auth envServerErr none = Except.error serverErr ∧
    SeedKey.auth envDoubleNotFound none = Except.error userNotFoundErr :=
  ⟨auth_fallback_spec.1 envAllOk none { sampleBackendResult with action := "login" } rfl,
   auth_fallback_spec.2.1 envUserNotFound none userNotFoundErr rfl rfl,
   auth_fallback_spec.2.2.1 envServerErr none serverErr rfl (by decide),
   auth_fallback_spec.2.2.2 envDoubleNotFound none userNotFoundErr userNotFoundErr
     rfl rfl rfl⟩

/-- C3: on every successful flow, `register()` returns the backend's
AuthResult with `action` forced to `"register"` and `authenticate()` with
`action` forced to `"login"`, irrespective of the backend payload's own
`action` value; all other fields (`success`, `user`, `token`) pass through
unchanged. -/
theorem action_tagging_spec :
    (∀ (env : FlowEnv) (opts : Option AuthOptions) (pk : String)
        (ch : ChallengeResponse) (sg : SignChallengeResult) (r : AuthResult),
        env.publicKey = Except.ok pk →
        env.challengeFor pk "register" = Except.ok ch →
        env.signChallenge ch.challenge = Except.ok sg →
        env.registerPost
          { publicKey := pk
            challenge := ch.challenge
            signature := sg.signature
            metadata :=
              { deviceName := chosenDeviceName opts env.deviceName
                sdkVersion := SDK_VERSION } } = Except.ok r →
        SeedKey.register env opts =
          Except.ok
            { success := r.success, action := "register", user := r.user, token := r.token }) ∧
    (∀ (env : FlowEnv) (pk : String) (ch : ChallengeResponse)
        (sg : SignChallengeResult) (r : AuthResult),
        env.publicKey = Except.ok pk →
        env.challengeFor pk "authenticate" = Except.ok ch →
        env.signChallenge ch.challenge = Except.ok sg →
        env.verifyPost
          { challengeId := ch.challengeId
            challenge := ch.challenge
            signature := sg.signature
            publicKey := pk } = Except.ok r →
        SeedKey.authenticate env =
          Except.ok
            { success := r.success, action := "login", user := r.user, token := r.token }) := by
  constructor
  · intro env opts pk ch sg r h1 h2 h3 h4
    simp [SeedKey.register, h1, h2, h3, h4, exbind_ok, expure]
  · intro env pk ch sg r h1 h2 h3 h4
    simp [SeedKey.authenticate, h1, h2, h3, h4, exbind_ok, expure]

/-- C3 witness: the backend reply carries `action := "backend-says-otherwise"`,
yet `register` yields `action := "register"` and `authenticate` yields
`action := "login"`, with the other fields untouched. -/
theorem action_tagging_witness :
    SeedKey.register envAllOk none =
      Except.ok
        { success := sampleBackendResult.success, action := "register",
          user := sampleBackendResult.user, token := sampleBackendResult.token } ∧
    SeedKey.authenticate envAllOk =
      Except.ok
        { success := sampleBackendResult.success, action := "login",
          user := sampleBackendResult.user, token := sampleBackendResult.token } :=
  ⟨action_tagging_spec.1 envAllOk none "k1"
      { challenge := sampleChallenge, challengeId := "c1" }
      { signature := "s1", publicKey := "k1" } sampleBackendResult rfl rfl rfl rfl,
   action_tagging_spec.2 envAllOk "k1"
      { challenge := sampleChallenge, challengeId := "c1" }
      { signature := "s1", publicKey := "k1" } sampleBackendResult rfl rfl rfl rfl⟩

/-- C4: `isTokenExpired()` is true when no expiry is recorded, and
otherwise exactly when `now > expiresAt - 5min`; concretely at time
T = 1700000000000, a stored expiry of T+4min reports expired, T+5min+1ms
reports not expired, and an absent expiry reports expired. -/
theorem isTokenExpired_spec :
    (∀ (store : List (String × String)) (now : Int),
        localStorageGetItem store STORAGE_KEY_EXPIRES_AT = none →
        isTokenExpired store now = true) ∧
    (∀ (store : List (String × String)) (now : Int) (s : String) (e : Int),
        localStorageGetItem store STORAGE_KEY_EXPIRES_AT = some s → s ≠ "" →
        jsParseInt s = some e →
        isTokenExpired store now = decide (now > e - bufferMs)) ∧
    bufferMs = 300000 ∧
    isTokenExpired [(STORAGE_KEY_EXPIRES_AT, "1700000240000")] 1700000000000 = true ∧
    isTokenExpired [(STORAGE_KEY_EXPIRES_AT, "1700000300001")] 1700000000000 = false ∧
    isTokenExpired [] 1700000000000 = true := by
  refine ⟨?_, ?_, by decide, by decide, by decide, by decide⟩
  · intro store now h
    simp [isTokenExpired, h]
  · intro store now s e h1 h2 h3
    simp [isTokenExpired, h1, h2, h3]

/-- C4 witness: the general clauses applied at concrete stores. -/
theorem isTokenExpired_witness :
    isTokenExpired [] 5 = true ∧
    isTokenExpired [(STORAGE_KEY_EXPIRES_AT, "1000000")] 999999 =
      decide ((999999 : Int) > 1000000 - bufferMs) :=
  ⟨isTokenExpired_spec.1 [] 5 rfl,
   isTokenExpired_spec.2.1 [(STORAGE_KEY_EXPIRES_AT, "1000000")] 999999 "1000000" 1000000
     (by decide) (by decide) (by decide)⟩

/-- C7: a non-success HTTP response with an empty body (`{}`) on the
user-fetch endpoint makes `ApiClient.getUser` reject with the generic
`SERVER_ERROR` code and the operation default message "Failed to get
user"; in general an absent embedded `error` code falls back to
`SERVER_ERROR` and an absent `message` falls back to the default. -/
theorem getUser_error_fallback :
    (∀ resp : HttpResponse, resp.ok = false → resp.body = Val.vObj [] →
        ApiClient.getUser (Except.ok resp) =
          Except.error
            { code := ERROR_CODES.SERVER_ERROR, message := "Failed to get user",
              hint := none, downloadUrl := none }) ∧
    (∀ resp : HttpResponse, resp.ok = false → getStrField resp.body "error" = none →
        ApiClient.getUser (Except.ok resp) =
          Except.error
            { code := ERROR_CODES.SERVER_ERROR,
              message := jsOrStr (getStrField resp.body "message") "Failed to get user",
              hint := none, downloadUrl := none }) ∧
    (∀ resp : HttpResponse, resp.ok = false → getStrField resp.body "message" = none →
        ApiClient.getUser (Except.ok resp) =
          Except.error
            { code := jsOrStr (getStrField resp.body "error") ERROR_CODES.SERVER_ERROR,
              message := "Failed to get user", hint := none, downloadUrl := none }) := by
  refine ⟨?_, ?_, ?_⟩
  · intro resp hok hb
    simp [ApiClient.getUser, hok, hb, getStrField, getField, lookupField, jsOrStr]
  · intro resp hok hb
    simp [ApiClient.getUser, hok, hb, jsOrStr]
  · intro resp hok hb
    simp [ApiClient.getUser, hok, hb, jsOrStr]

/-- C7 witness: the empty-body 500 response on the user endpoint. -/
theorem getUser_error_fallback_witness :
    ApiClient.getUser (Except.ok { ok := false, status := 500, body := Val.vObj [] }) =
      Except.error
        { code := ERROR_CODES.SERVER_ERROR, message := "Failed to get user",
          hint := none, downloadUrl := none } :=
  getUser_error_fallback.1 { ok := false, status := 500, body := Val.vObj [] } rfl rfl

/-- C10: `getSeedKey` throws when the slot is empty and no options were
supplied; creates a fresh instance when the slot is empty and options are
given; once an instance exists every call returns that same instance and
ignores any newly supplied options; `resetSeedKey` destroys the current
instance (rejecting all its pending requests and clearing its table) and
clears the slot, so the next `getSeedKey(options)` builds a fresh
instance. -/
theorem singleton_accessor_spec :
    getSeedKey none none =
      Except.error "SeedKey SDK not initialized. Call getSeedKey with options first." ∧
    (∀ o : SeedKeyOptions,
        getSeedKey none (some o) = Except.ok (newSeedKey o, some (newSeedKey o))) ∧
    (∀ (i : SeedKeyInstance) (opts : Option SeedKeyOptions),
        getSeedKey (some i) opts = Except.ok (i, some i)) ∧
    (∀ i : SeedKeyInstance,
        (resetSeedKey (some i)).1 = none ∧
        (resetSeedKey (some i)).2 =
          some { i with transport := step i.transport TEvent.destroy } ∧
        (step i.transport TEvent.destroy).pending = [] ∧
        (step i.transport TEvent.destroy).settled =
          i.transport.settled ++
            i.transport.pending.map (fun r => (r, Outcome.rejected sdkDestroyedError))) ∧
    resetSeedKey none = (none, none) ∧
    (∀ (s : Option SeedKeyInstance) (o : SeedKeyOptions),
        getSeedKey (resetSeedKey s).1 (some o) =
          Except.ok (newSeedKey o, some (newSeedKey o))) := by
  refine ⟨rfl, fun o => rfl, ?_, ?_, rfl, ?_⟩
  · intro i opts
    cases opts <;> rfl
  · intro i
    exact ⟨rfl, rfl, rfl, rfl⟩
  · intro s o
    cases s <;> rfl

end SeedKeySDK
